import Mathlib

/-!
Verification of the PrimeVista web application (`src/app.py`) against its
natural-language specification.  The Python source is shallowly embedded:

* Python `//` on integers is `Int.fdiv` (exact); the float arithmetic of
  the resize step is idealized as exact rationals with `int(...)` as
  `Int.floor` — an idealization that the program does NOT always match:
  the section on the truncation bug below certifies, in pure integer
  arithmetic, a concrete input where IEEE binary64 evaluation lands one
  below the exact value, which is why claims C1 and C2 are reported as a
  code bug rather than confirmed through the idealized model;
* the filesystem (the upload directory) is a finite association list from
  filenames to file data;
* the SQLite tables are lists of rows plus an autoincrement counter;
* nondeterminism (uuid hex strings, I/O failures, image decode results) is
  supplied by an explicit environment record, so every failure path of the
  Python `try`/`except` blocks is a branch of a total function.
-/

/-! ### Python string primitives used by the handlers -/

/-- Whitespace characters stripped by Python `str.strip()` / split by
`str.split()` (for the ASCII range used throughout this application). -/
def isPySpace (c : Char) : Bool :=
  c = ' ' || c = '\t' || c = '\n' || c = '\r' || c = '\x0b' || c = '\x0c'

/-- Python `str.strip()`: remove leading and trailing whitespace. -/
def pyStrip (s : String) : String :=
  String.mk (((s.data.dropWhile isPySpace).reverse.dropWhile isPySpace).reverse)

/-- Python `str.lower()` restricted to ASCII, which is all the extension
comparison in `allowed_file` needs. -/
def pyLower (s : String) : String :=
  String.mk (s.data.map Char.toLower)

/-! ### `allowed_file` (src/app.py lines 72-73) -/

/-- Model of ALLOWED_EXTENSIONS (src/app.py line 16): png, jpg, jpeg, gif. -/
def ALLOWED_EXTENSIONS : List String := ["png", "jpg", "jpeg", "gif"]

/-- The substring after the last `'.'` of `s` (Python
`s.rsplit('.', 1)[1]` when `'.' in s`), or `none` when `s` has no dot. -/
def extAfterLastDot (s : String) : Option String :=
  if s.data.contains '.' then
    some (String.mk ((s.data.reverse.takeWhile (fun c => ¬ c = '.')).reverse))
  else
    none

/-- Model of `allowed_file` (src/app.py lines 72-73): a dot must occur in
the filename and the lowercased substring after the last dot must be in
the allow-list. -/
def allowed_file (filename : String) : Bool :=
  match extAfterLastDot filename with
  | none => false
  | some e => ALLOWED_EXTENSIONS.contains (pyLower e)

/-! ### `werkzeug.utils.secure_filename`

The pipeline sanitizes the client filename with the werkzeug function
`secure_filename` before anything else.  On a POSIX host that function is:
NFKD-normalize, encode to ASCII ignoring errors, replace `os.sep` (`'/'`)
with a space, collapse whitespace runs into single underscores,
delete every character outside `[A-Za-z0-9_.-]`, and finally strip leading
and trailing `'.'` and `'_'`.  We model the NFKD/ASCII step as dropping
every non-ASCII character (exact for ASCII input, which is what every
theorem below instantiates it with). -/

/-- Characters kept by the werkzeug filename regex: ASCII letters,
digits, underscore, dot, hyphen. -/
def sfKeep (c : Char) : Bool :=
  c.isAlphanum || c = '_' || c = '.' || c = '-'

/-- Characters stripped from both ends (dot and underscore). -/
def sfStripChar (c : Char) : Bool :=
  c = '.' || c = '_'

/-- Collapse every maximal whitespace run of a character list into a
single underscore.  Applied to a list with no leading or trailing
whitespace this is exactly the underscore-join of the Python split. -/
def wsCollapse : List Char → List Char
  | [] => []
  | [c] => [if isPySpace c then '_' else c]
  | c :: d :: rest =>
    if isPySpace c && isPySpace d then wsCollapse (d :: rest)
    else (if isPySpace c then '_' else c) :: wsCollapse (d :: rest)

/-- Model of secure_filename (werkzeug, POSIX), as described above. -/
def secure_filename (s : String) : String :=
  let ascii := s.data.filter (fun c => c.toNat < 128)
  let nosep := ascii.map (fun c => if c = '/' then ' ' else c)
  let trimmed := ((nosep.dropWhile isPySpace).reverse.dropWhile isPySpace).reverse
  let joined := wsCollapse trimmed
  let kept := joined.filter sfKeep
  String.mk (((kept.dropWhile sfStripChar).reverse.dropWhile sfStripChar).reverse)

/-! ### `os.path.splitext`

CPython splits at the last `'.'` of the basename unless every character
before that dot is itself a dot (a leading-dot name has no extension).  The
argument here is always a `secure_filename` result, which contains no
`'/'`, so the basename is the whole string. -/

/-- Model of os.path.splitext for a path without directory separators. -/
def splitext (s : String) : String × String :=
  let l := s.data
  if l.contains '.' then
    let afterRev := l.reverse.takeWhile (fun c => ¬ c = '.')
    let ext := '.' :: afterRev.reverse
    let root := l.take (l.length - ext.length)
    if root.any (fun c => ¬ c = '.') then (String.mk root, String.mk ext)
    else (s, "")
  else (s, "")

/-! ### Resize and center-crop arithmetic (src/app.py lines 110-132)

Python computes the ratios and the scale with IEEE binary64 division;
`resizeDims` idealizes that arithmetic as exact rationals, with `int(x)`
(truncation toward zero of a nonnegative value) as `Int.floor` followed
by `Int.toNat`.  The idealization is the intended cover-fit rule of the
spec, but it is NOT everywhere what the program computes: at inputs
whose aspect ratio equals the target ratio the double rounding can land
the truncated dimension one below the exact value (certified at 873×679
in the truncation-bug section below).  The branch condition itself
agrees with the program: both ratio divisions are correctly rounded
images of their exact values, and for dimensions small enough to be
real image sizes the rational gap between distinct ratios dwarfs the
rounding error.  Python `//` on integers is floor division, `Int.fdiv`,
which is exact. -/

/-- The `(new_width, new_height)` of the exact-arithmetic cover-fit rule
(src/app.py lines 111-123 with real-number arithmetic in place of
binary64); see the section comment for where the program deviates. -/
def resizeDims (w h target_w target_h : Nat) : Nat × Nat :=
  let img_ratio : ℚ := (w : ℚ) / (h : ℚ)
  let target_ratio : ℚ := (target_w : ℚ) / (target_h : ℚ)
  if target_ratio < img_ratio then
    let new_height := target_h
    let scale : ℚ := (new_height : ℚ) / (h : ℚ)
    ((⌊(w : ℚ) * scale⌋).toNat, new_height)
  else
    let new_width := target_w
    let scale : ℚ := (new_width : ℚ) / (w : ℚ)
    (new_width, (⌊(h : ℚ) * scale⌋).toNat)

/-- The crop box `(left, top, right, bottom)` computed at
src/app.py lines 128-131: `left = (new_width - target_w) // 2`,
`top = (new_height - target_h) // 2`, `right = left + target_w`,
`bottom = top + target_h`. -/
def cropBox (new_width new_height target_w target_h : Nat) : Int × Int × Int × Int :=
  let left := Int.fdiv ((new_width : Int) - (target_w : Int)) 2
  let top := Int.fdiv ((new_height : Int) - (target_h : Int)) 2
  (left, top, left + (target_w : Int), top + (target_h : Int))

/-! ### Filesystem and environment model -/

/-- Contents of a file in the upload directory: either the raw uploaded
bytes (identified abstractly by a blob id of the upload) or an encoded JPEG
of a given quality and pixel size. -/
inductive FileData where
  | raw (blob : Nat)
  | jpeg (quality : Nat) (width : Nat) (height : Nat)
deriving DecidableEq, Repr

/-- The upload directory: an association list from filename to contents.
All paths the pipeline touches live in `UPLOAD_FOLDER`, so bare filenames
are the keys. -/
abbrev FS := List (String × FileData)

/-- Whether a file with the given name exists (`os.path.exists`). -/
def fsExists (fs : FS) (name : String) : Bool :=
  fs.any (fun p => p.1 == name)

/-- Write (create or overwrite) a file. -/
def fsWrite (fs : FS) (name : String) (d : FileData) : FS :=
  (name, d) :: fs.filter (fun p => !(p.1 == name))

/-- Remove a file (`os.remove`). -/
def fsRemove (fs : FS) (name : String) : FS :=
  fs.filter (fun p => !(p.1 == name))

/-- Look up the contents of a file. -/
def fsRead (fs : FS) (name : String) : Option FileData :=
  (fs.find? (fun p => p.1 == name)).map Prod.snd

/-- A decoded image (PIL `Image`): its pixel dimensions, which is all the
pipeline inspects. -/
structure Img where
  width : Nat
  height : Nat
deriving DecidableEq, Repr

/-- Model of the Flask FileStorage: the client-supplied filename plus the uploaded
bytes (abstract blob id). -/
structure FileStorage where
  filename : String
  content : Nat
deriving DecidableEq, Repr

/-- The nondeterministic environment of one `save_and_crop_image` call:
the two `uuid4().hex` draws and the outcome of each I/O step.
`decode = none` models `Image.open` raising; `saveOk = false` models
`file_storage.save` raising; `encodeOk = false` models `img.save`
raising; `removeOk = false` models `os.remove` raising (caught by the
inner bare `except`). -/
structure Env where
  tmpHex : String
  finalHex : String
  saveOk : Bool
  decode : Option Img
  encodeOk : Bool
  removeOk : Bool
deriving DecidableEq, Repr

/-- The temp-file cleanup block (src/app.py lines 140-144 and 148-152):
`if os.path.exists(tmp_path): os.remove(tmp_path)`, with any `os.remove`
failure swallowed. -/
def cleanupTmp (env : Env) (fs : FS) (tmp_name : String) : FS :=
  if fsExists fs tmp_name then
    if env.removeOk then fsRemove fs tmp_name else fs
  else fs

/-! ### `save_and_crop_image` (src/app.py lines 75-154)

The function is embedded in three stages that mirror the phases of the source:
the name computations and guard clauses (lines 83-100), the `try` block
around `file_storage.save` and `Image.open` (lines 102-106), and the
decode/resize/crop/encode body of the `with` block (lines 106-135,
together with the temp cleanup of lines 137-152). -/

/-- The final filename built at src/app.py line 95:
`{name}_{uuid4().hex}.jpg` (the extension is always normalized to
`.jpg`, line 92). -/
def uniqueName (env : Env) (f : FileStorage) : String :=
  (splitext (secure_filename f.filename)).1 ++ "_" ++ env.finalHex ++ ".jpg"

/-- The temp filename built at src/app.py line 99:
`{name}_{uuid4().hex}{_ext}` (keeps the original extension). -/
def tmpName (env : Env) (f : FileStorage) : String :=
  (splitext (secure_filename f.filename)).1 ++ "_" ++ env.tmpHex
    ++ (splitext (secure_filename f.filename)).2

/-- The body of the `with Image.open(...)` block (src/app.py lines
106-135) given the decoded image `img`, followed by the temp cleanup:
convert to RGB (dimensions unchanged), compute the resize dimensions and
the center-crop box, encode the cropped image as JPEG quality 90 under
`unique_name`; `img.save` failing (`encodeOk = false`) aborts to the
`except` path. -/
def process_and_store (env : Env) (fs1 : FS) (img : Img)
    (unique_name tmp_name : String) (target_w target_h : Nat) :
    Option String × FS :=
  let nwh := resizeDims img.width img.height target_w target_h
  let box := cropBox nwh.1 nwh.2 target_w target_h
  let cropped_w := (box.2.2.1 - box.1).toNat
  let cropped_h := (box.2.2.2 - box.2.1).toNat
  if ¬ env.encodeOk = true then
    (none, cleanupTmp env fs1 tmp_name)
  else
    (some unique_name,
     cleanupTmp env
       (fsWrite fs1 unique_name (FileData.jpeg 90 cropped_w cropped_h))
       tmp_name)

/-- The `try`/`except`/`else` block of `save_and_crop_image`
(src/app.py lines 102-152): write the raw upload to the temp path, open
it, and process; every exception path cleans up the temp file and
returns `None`. -/
def try_save_and_process (env : Env) (fs : FS) (f : FileStorage)
    (unique_name tmp_name : String) (target_w target_h : Nat) :
    Option String × FS :=
  if ¬ env.saveOk = true then
    (none, cleanupTmp env fs tmp_name)
  else
    match env.decode with
    | none =>
      (none, cleanupTmp env (fsWrite fs tmp_name (FileData.raw f.content)) tmp_name)
    | some img =>
      process_and_store env (fsWrite fs tmp_name (FileData.raw f.content)) img
        unique_name tmp_name target_w target_h

/-- Model of save_and_crop_image (src/app.py lines 75-154): returns the stored
filename (or `none`) and the resulting upload directory.  The
`try`/`except Exception` makes every failure return `None`, so the
embedding is a total function into `Option String × FS`. -/
def save_and_crop_image (env : Env) (fs : FS) (file_storage : Option FileStorage)
    (target_w : Nat := 450) (target_h : Nat := 350) : Option String × FS :=
  match file_storage with
  | none => (none, fs)
  | some f =>
    if f.filename = "" then (none, fs)
    else if ¬ allowed_file (secure_filename f.filename) = true then (none, fs)
    else try_save_and_process env fs f (uniqueName env f) (tmpName env f)
      target_w target_h

/-! ### Database model (src/app.py lines 32-69)

Each SQLite table is a list of rows plus the autoincrement counter that
assigns the next `id`. -/

/-- A row of the `projects` table. -/
structure ProjectRow where
  id : Nat
  name : String
  description : String
  image_filename : Option String
deriving DecidableEq, Repr

/-- The `projects` table. -/
structure ProjectsTable where
  rows : List ProjectRow
  nextId : Nat
deriving DecidableEq, Repr

/-- A row of the `clients` table. -/
structure ClientRow where
  id : Nat
  name : String
  designation : String
  description : String
  image_filename : Option String
deriving DecidableEq, Repr

/-- The `clients` table. -/
structure ClientsTable where
  rows : List ClientRow
  nextId : Nat
deriving DecidableEq, Repr

/-- A row of the `contacts` table. -/
structure ContactRow where
  id : Nat
  full_name : String
  email : String
  mobile : String
  city : String
  created_at : String
deriving DecidableEq, Repr

/-- The `contacts` table. -/
structure ContactsTable where
  rows : List ContactRow
  nextId : Nat
deriving DecidableEq, Repr

/-- A row of the `subscriptions` table. -/
structure SubscriptionRow where
  id : Nat
  email : String
  created_at : String
deriving DecidableEq, Repr

/-- The `subscriptions` table. -/
structure SubscriptionsTable where
  rows : List SubscriptionRow
  nextId : Nat
deriving DecidableEq, Repr

/-- A transient one-shot user-facing message (Flask `flash`). -/
inductive Flash where
  | success (msg : String)
  | error (msg : String)
deriving DecidableEq, Repr

/-- The HTTP outcome of a handler: a redirect to an endpoint or a rendered
template (both served with a normal success status). -/
inductive Response where
  | redirect (endpoint : String)
  | render (template : String)
deriving DecidableEq, Repr

/-! ### Schema initialization (`init_db`, src/app.py lines 32-69) -/

/-- A table definition: name plus `(column name, column type)` pairs. -/
structure TableDef where
  name : String
  columns : List (String × String)
deriving DecidableEq, Repr

/-- A database schema: the list of tables present, in creation order. -/
abbrev Schema := List TableDef

/-- SQLite `CREATE TABLE IF NOT EXISTS`: a no-op when a table of that name
already exists (regardless of its columns), otherwise appends the table.
It never errors. -/
def createTableIfNotExists (s : Schema) (t : TableDef) : Schema :=
  if s.any (fun u => u.name == t.name) then s else s ++ [t]

/-- The `projects` table definition (src/app.py lines 37-42). -/
def projectsTableDef : TableDef :=
  TableDef.mk "projects"
    [("id", "INTEGER PRIMARY KEY AUTOINCREMENT"),
     ("name", "TEXT NOT NULL"),
     ("description", "TEXT NOT NULL"),
     ("image_filename", "TEXT")]

/-- The `clients` table definition (src/app.py lines 44-50). -/
def clientsTableDef : TableDef :=
  TableDef.mk "clients"
    [("id", "INTEGER PRIMARY KEY AUTOINCREMENT"),
     ("name", "TEXT NOT NULL"),
     ("designation", "TEXT NOT NULL"),
     ("description", "TEXT NOT NULL"),
     ("image_filename", "TEXT")]

/-- The `contacts` table definition (src/app.py lines 52-59). -/
def contactsTableDef : TableDef :=
  TableDef.mk "contacts"
    [("id", "INTEGER PRIMARY KEY AUTOINCREMENT"),
     ("full_name", "TEXT NOT NULL"),
     ("email", "TEXT NOT NULL"),
     ("mobile", "TEXT NOT NULL"),
     ("city", "TEXT NOT NULL"),
     ("created_at", "TEXT NOT NULL")]

/-- The `subscriptions` table definition (src/app.py lines 61-65). -/
def subscriptionsTableDef : TableDef :=
  TableDef.mk "subscriptions"
    [("id", "INTEGER PRIMARY KEY AUTOINCREMENT"),
     ("email", "TEXT NOT NULL"),
     ("created_at", "TEXT NOT NULL")]

/-- Model of init_db (src/app.py lines 32-69): execute the four
`CREATE TABLE IF NOT EXISTS` statements in order. -/
def init_db (s : Schema) : Schema :=
  createTableIfNotExists
    (createTableIfNotExists
      (createTableIfNotExists
        (createTableIfNotExists s projectsTableDef)
        clientsTableDef)
      contactsTableDef)
    subscriptionsTableDef

/-! ### Public handlers (src/app.py lines 165-197) -/

/-- The fields of the contact form, as returned by
`request.form.get(..., '')` (a missing field is the empty string). -/
structure ContactForm where
  full_name : String
  email : String
  mobile : String
  city : String
deriving DecidableEq, Repr

/-- Model of contact_submit (src/app.py lines 165-184); `now` stands for
the isoformat utcnow timestamp. -/
def contact_submit (db : ContactsTable) (form : ContactForm) (now : String) :
    ContactsTable × Flash × Response :=
  let full_name := pyStrip form.full_name
  let email := pyStrip form.email
  let mobile := pyStrip form.mobile
  let city := pyStrip form.city
  if full_name = "" ∨ email = "" ∨ mobile = "" ∨ city = "" then
    (db, Flash.error "Please fill all contact form fields.", Response.redirect "index")
  else
    (ContactsTable.mk
      (db.rows ++ [ContactRow.mk db.nextId full_name email mobile city now])
      (db.nextId + 1),
     Flash.success "Thank you! Your contact details have been submitted.",
     Response.redirect "index")

/-- Model of subscribe (src/app.py lines 186-197). -/
def subscribe (db : SubscriptionsTable) (email_input : String) (now : String) :
    SubscriptionsTable × Flash × Response :=
  let email := pyStrip email_input
  if email = "" then
    (db, Flash.error "Please enter an email address.", Response.redirect "index")
  else
    (SubscriptionsTable.mk
      (db.rows ++ [SubscriptionRow.mk db.nextId email now])
      (db.nextId + 1),
     Flash.success "Subscribed successfully!", Response.redirect "index")

/-! ### Admin create handlers (src/app.py lines 213-238 and 259-285)

Only the POST branch is modelled: the GET branch touches no state.
Note the order of operations in the source: the uploaded image is
processed (and its file written) *before* the required-field check. -/

/-- The image block shared by both admin create handlers
(src/app.py lines 221-224 and 268-271): `filename = None`, then
`if image and image.filename: filename = save_and_crop_image(image, 450, 350)`.
Returns the stored filename (or `none`) and the resulting upload
directory. -/
def handle_image_upload (env : Env) (fs : FS) (image : Option FileStorage) :
    Option String × FS :=
  match image with
  | some i =>
    if i.filename = "" then (none, fs)
    else save_and_crop_image env fs (some i) 450 350
  | none => (none, fs)

/-- The fields of the admin project form. -/
structure ProjectForm where
  name : String
  description : String
deriving DecidableEq, Repr

/-- The POST branch of `admin_projects` (src/app.py lines 216-234). -/
def admin_projects_post (env : Env) (fs : FS) (db : ProjectsTable)
    (form : ProjectForm) (image : Option FileStorage) :
    FS × ProjectsTable × Flash × Response :=
  let name := pyStrip form.name
  let description := pyStrip form.description
  let fr := handle_image_upload env fs image
  if name = "" ∨ description = "" then
    (fr.2, db, Flash.error "Please provide project name and description.",
     Response.render "admin/projects.html")
  else
    (fr.2,
     ProjectsTable.mk
       (db.rows ++ [ProjectRow.mk db.nextId name description fr.1])
       (db.nextId + 1),
     Flash.success "Project added!", Response.render "admin/projects.html")

/-- The fields of the admin client form. -/
structure ClientForm where
  name : String
  designation : String
  description : String
deriving DecidableEq, Repr

/-- The POST branch of `admin_clients` (src/app.py lines 262-281). -/
def admin_clients_post (env : Env) (fs : FS) (db : ClientsTable)
    (form : ClientForm) (image : Option FileStorage) :
    FS × ClientsTable × Flash × Response :=
  let name := pyStrip form.name
  let designation := pyStrip form.designation
  let description := pyStrip form.description
  let fr := handle_image_upload env fs image
  if name = "" ∨ designation = "" ∨ description = "" then
    (fr.2, db, Flash.error "Please provide client name, designation and description.",
     Response.render "admin/clients.html")
  else
    (fr.2,
     ClientsTable.mk
       (db.rows ++ [ClientRow.mk db.nextId name designation description fr.1])
       (db.nextId + 1),
     Flash.success "Client added!", Response.render "admin/clients.html")

/-! ### Delete handlers (src/app.py lines 240-256 and 287-303) -/

/-- Model of delete_project (src/app.py lines 240-256); `removeOk = false`
models `os.remove` raising (the exception is caught and logged; the row
deletion still runs). -/
def delete_project (removeOk : Bool) (fs : FS) (db : ProjectsTable) (pid : Nat) :
    FS × ProjectsTable × Option Flash × Response :=
  match db.rows.find? (fun r => r.id == pid) with
  | none => (fs, db, none, Response.redirect "admin_projects")
  | some row =>
    let fs' :=
      match row.image_filename with
      | some f =>
        if fsExists fs f then
          if removeOk then fsRemove fs f else fs
        else fs
      | none => fs
    (fs',
     ProjectsTable.mk (db.rows.filter (fun r => !(r.id == pid))) db.nextId,
     some (Flash.success "Project deleted."), Response.redirect "admin_projects")

/-- Model of delete_client (src/app.py lines 287-303). -/
def delete_client (removeOk : Bool) (fs : FS) (db : ClientsTable) (cid : Nat) :
    FS × ClientsTable × Option Flash × Response :=
  match db.rows.find? (fun r => r.id == cid) with
  | none => (fs, db, none, Response.redirect "admin_clients")
  | some row =>
    let fs' :=
      match row.image_filename with
      | some f =>
        if fsExists fs f then
          if removeOk then fsRemove fs f else fs
        else fs
      | none => fs
    (fs',
     ClientsTable.mk (db.rows.filter (fun r => !(r.id == cid))) db.nextId,
     some (Flash.success "Client deleted."), Response.redirect "admin_clients")

/-! ### Lemmas: resize and crop arithmetic -/

theorem fdiv_two_ofNat : ∀ (m : Nat), Int.fdiv (Int.ofNat m) 2 = Int.ofNat (m / 2)
  | 0 => rfl
  | (Nat.succ _) => rfl

theorem fdiv_two_natCast (m : Nat) : Int.fdiv (m : ℤ) 2 = ((m / 2 : ℕ) : ℤ) := by
  rw [← Int.ofNat_eq_natCast, ← Int.ofNat_eq_natCast, fdiv_two_ofNat]

/-- In the exact-arithmetic model the scaled dimensions dominate the
target ones: the floor in each branch of `resizeDims` rounds down to a
value still at or above the corresponding target dimension.  (This is
the guarantee the spec intends; the program's binary64 evaluation can
violate it, see the truncation-bug section.) -/
theorem resizeDims_ge (w h target_w target_h : Nat)
    (hw : 0 < w) (hh : 0 < h) (htw : 0 < target_w) (hth : 0 < target_h) :
    target_w ≤ (resizeDims w h target_w target_h).1 ∧
    target_h ≤ (resizeDims w h target_w target_h).2 := by
  have hwq : (0 : ℚ) < (w : ℚ) := by exact_mod_cast hw
  have hhq : (0 : ℚ) < (h : ℚ) := by exact_mod_cast hh
  have hthq : (0 : ℚ) < (target_h : ℚ) := by exact_mod_cast hth
  by_cases hc : ((target_w : ℚ) / (target_h : ℚ) < (w : ℚ) / (h : ℚ))
  · have hmul : (target_w : ℚ) * (h : ℚ) < (w : ℚ) * (target_h : ℚ) :=
      (div_lt_div_iff₀ hthq hhq).mp hc
    have hq : (target_w : ℚ) < (w : ℚ) * ((target_h : ℚ) / (h : ℚ)) := by
      rw [mul_div_assoc']
      exact (lt_div_iff₀ hhq).mpr hmul
    have hfl : (target_w : ℤ) ≤ ⌊(w : ℚ) * ((target_h : ℚ) / (h : ℚ))⌋ := by
      rw [Int.le_floor]
      exact_mod_cast le_of_lt hq
    have h0 : (0 : ℤ) ≤ ⌊(w : ℚ) * ((target_h : ℚ) / (h : ℚ))⌋ := by positivity
    constructor
    · simp only [resizeDims, if_pos hc]
      exact (Int.le_toNat h0).mpr hfl
    · simp only [resizeDims, if_pos hc]
      exact le_refl _
  · have hle : (w : ℚ) / (h : ℚ) ≤ (target_w : ℚ) / (target_h : ℚ) := le_of_not_lt hc
    have hmul : (w : ℚ) * (target_h : ℚ) ≤ (target_w : ℚ) * (h : ℚ) :=
      (div_le_div_iff₀ hhq hthq).mp hle
    have hq : (target_h : ℚ) ≤ (h : ℚ) * ((target_w : ℚ) / (w : ℚ)) := by
      rw [mul_div_assoc']
      rw [le_div_iff₀ hwq]
      nlinarith
    have hfl : (target_h : ℤ) ≤ ⌊(h : ℚ) * ((target_w : ℚ) / (w : ℚ))⌋ := by
      rw [Int.le_floor]
      exact_mod_cast hq
    have h0 : (0 : ℤ) ≤ ⌊(h : ℚ) * ((target_w : ℚ) / (w : ℚ))⌋ := by positivity
    constructor
    · simp only [resizeDims, if_neg hc]
      exact le_refl _
    · simp only [resizeDims, if_neg hc]
      exact (Int.le_toNat h0).mpr hfl

/-- When the scaled image dominates the target, the crop box lies inside
the scaled image. -/
theorem cropBox_within (nw nh target_w target_h : Nat)
    (h1 : target_w ≤ nw) (h2 : target_h ≤ nh) :
    0 ≤ (cropBox nw nh target_w target_h).1 ∧
    0 ≤ (cropBox nw nh target_w target_h).2.1 ∧
    (cropBox nw nh target_w target_h).2.2.1 ≤ (nw : ℤ) ∧
    (cropBox nw nh target_w target_h).2.2.2 ≤ (nh : ℤ) := by
  have e1 : (nw : ℤ) - (target_w : ℤ) = ((nw - target_w : ℕ) : ℤ) := by omega
  have e2 : (nh : ℤ) - (target_h : ℤ) = ((nh - target_h : ℕ) : ℤ) := by omega
  simp only [cropBox, e1, e2, fdiv_two_natCast]
  have d1 : (nw - target_w) / 2 ≤ nw - target_w := Nat.div_le_self _ _
  have d2 : (nh - target_h) / 2 ≤ nh - target_h := Nat.div_le_self _ _
  refine ⟨by positivity, by positivity, ?_, ?_⟩ <;> omega

/-- The width and height of the crop box are always exactly the target
dimensions (the PIL crop returns an image of exactly the box size). -/
theorem cropBox_dims (nw nh target_w target_h : Nat) :
    ((cropBox nw nh target_w target_h).2.2.1 - (cropBox nw nh target_w target_h).1).toNat
      = target_w ∧
    ((cropBox nw nh target_w target_h).2.2.2 - (cropBox nw nh target_w target_h).2.1).toNat
      = target_h := by
  simp only [cropBox]
  constructor <;> simp

/-! ### Lemmas: filesystem operations -/

theorem find?_filter_ne (l : FS) (t n : String) (h : ¬ t = n) :
    (l.filter (fun p => !(p.1 == t))).find? (fun p => p.1 == n)
      = l.find? (fun p => p.1 == n) := by
  induction l with
  | nil => rfl
  | cons p rest ih =>
    rw [List.filter_cons]
    by_cases hp : (p.1 == t) = true
    · have hpn : ¬ (p.1 == n) = true := by
        rw [beq_iff_eq] at hp ⊢
        rw [hp]
        exact h
      have hn2 : (p.1 == n) = false := by
        rw [Bool.eq_false_iff]
        exact hpn
      rw [if_neg (by simp [hp]), ih]
      simp only [List.find?_cons, hn2]
    · rw [if_pos (by simp [hp])]
      cases hn : (p.1 == n) with
      | true => simp only [List.find?_cons, hn]
      | false => simp only [List.find?_cons, hn, ih]

theorem fsRead_fsRemove_ne (fs : FS) (t n : String) (h : ¬ t = n) :
    fsRead (fsRemove fs t) n = fsRead fs n := by
  rw [fsRead, fsRead, fsRemove, find?_filter_ne fs t n h]

theorem fsRead_fsWrite_self (fs : FS) (n : String) (d : FileData) :
    fsRead (fsWrite fs n d) n = some d := by
  rw [fsRead, fsWrite, List.find?_cons_of_pos _ (by simp)]
  rfl

theorem fsExists_fsRemove_self (fs : FS) (n : String) :
    fsExists (fsRemove fs n) n = false := by
  rw [fsExists, fsRemove]
  rw [List.any_eq_false]
  intro p hp
  have := List.of_mem_filter hp
  simpa using this

theorem fsRead_cleanupTmp_ne (env : Env) (fs : FS) (t n : String) (h : ¬ t = n) :
    fsRead (cleanupTmp env fs t) n = fsRead fs n := by
  unfold cleanupTmp
  by_cases he : fsExists fs t = true
  · by_cases hr : env.removeOk = true
    · simp [he, hr, fsRead_fsRemove_ne fs t n h]
    · simp [he, hr]
  · simp [he]

theorem fsExists_cleanupTmp_self (env : Env) (fs : FS) (t : String)
    (hok : env.removeOk = true) :
    fsExists (cleanupTmp env fs t) t = false := by
  unfold cleanupTmp
  by_cases he : fsExists fs t = true
  · simp [he, hok, fsExists_fsRemove_self]
  · simp only [he]
    simpa using he

/-! ### Lemmas: the temp name and the final name never coincide -/

/-- Two concatenations that agree and whose tails start at an occurrence
of a separator absent from both heads split identically. -/
theorem append_sep_eq (sep : Char) :
    ∀ (a : List Char), sep ∉ a → ∀ (b : List Char), sep ∉ b →
    ∀ (u v : List Char), a ++ sep :: u = b ++ sep :: v → a = b := by
  intro a
  induction a with
  | nil =>
    intro _ b hb u v h
    cases b with
    | nil => rfl
    | cons c b2 =>
      simp only [List.nil_append, List.cons_append, List.cons.injEq] at h
      exfalso
      apply hb
      rw [h.1]
      exact List.mem_cons_self c b2
  | cons c a2 ih =>
    intro ha b hb u v h
    cases b with
    | nil =>
      simp only [List.cons_append, List.nil_append, List.cons.injEq] at h
      exfalso
      apply ha
      rw [← h.1]
      exact List.mem_cons_self c a2
    | cons d b2 =>
      simp only [List.cons_append, List.cons.injEq] at h
      have ha2 : sep ∉ a2 := fun hm => ha (List.mem_cons_of_mem _ hm)
      have hb2 : sep ∉ b2 := fun hm => hb (List.mem_cons_of_mem _ hm)
      rw [h.1, ih ha2 b2 hb2 u v h.2]

/-- The extension returned by `splitext` is empty or starts with `'.'`. -/
theorem splitext_ext_shape (s : String) :
    (splitext s).2 = "" ∨ ∃ r, (splitext s).2.data = '.' :: r := by
  unfold splitext
  by_cases h1 : s.data.contains '.' = true
  · simp only [h1, if_pos]
    by_cases h2 :
        (s.data.take (s.data.length -
          ('.' :: (s.data.reverse.takeWhile (fun c => ¬ c = '.')).reverse).length)).any
          (fun c => ¬ c = '.') = true
    · right
      simp only [h2, if_pos]
      exact ⟨_, rfl⟩
    · left
      simp only [h2]
      simp
  · left
    simp only [h1]
    simp

/-- The temp filename and the final filename differ whenever the two
uuid hex strings differ (uuid hex strings never contain `'.'`). -/
theorem tmp_ne_unique (base ext tmpHex finalHex : String)
    (hext : ext = "" ∨ ∃ r, ext.data = '.' :: r)
    (h1 : '.' ∉ tmpHex.data) (h2 : '.' ∉ finalHex.data)
    (hne : ¬ tmpHex = finalHex) :
    ¬ (base ++ "_" ++ tmpHex ++ ext = base ++ "_" ++ finalHex ++ ".jpg") := by
  intro h
  have hd : (base ++ "_" ++ tmpHex ++ ext).data
      = (base ++ "_" ++ finalHex ++ ".jpg").data := by rw [h]
  simp only [String.data_append, List.append_assoc] at hd
  have hd2 : tmpHex.data ++ ext.data = finalHex.data ++ ".jpg".data :=
    List.append_cancel_left (List.append_cancel_left hd)
  rcases hext with he | ⟨r, he⟩
  · rw [he] at hd2
    rw [List.append_nil] at hd2
    apply h1
    rw [hd2]
    exact List.mem_append_right _ (List.mem_cons_self _ _)
  · rw [he] at hd2
    exact hne (String.ext (append_sep_eq '.' tmpHex.data h1 finalHex.data h2 r ['j', 'p', 'g'] hd2))

/-! ### Lemmas: symbolic execution of the pipeline -/

/-- Success of the processing stage: the stored file is the JPEG at
quality 90 with exactly the target dimensions, under the final name. -/
theorem process_and_store_success (env : Env) (fs1 : FS) (img : Img)
    (u t : String) (tw th : Nat) (out : String) (fsOut : FS)
    (hrun : process_and_store env fs1 img u t tw th = (some out, fsOut)) :
    out = u ∧ env.encodeOk = true ∧
    fsOut = cleanupTmp env (fsWrite fs1 u (FileData.jpeg 90 tw th)) t := by
  simp only [process_and_store] at hrun
  rw [(cropBox_dims (resizeDims img.width img.height tw th).1
        (resizeDims img.width img.height tw th).2 tw th).1,
      (cropBox_dims (resizeDims img.width img.height tw th).1
        (resizeDims img.width img.height tw th).2 tw th).2] at hrun
  by_cases h4 : env.encodeOk = true
  · rw [if_neg (not_not_intro h4)] at hrun
    rw [Prod.mk.injEq] at hrun
    obtain ⟨ho, hfs⟩ := hrun
    rw [Option.some.injEq] at ho
    exact ⟨ho.symm, h4, hfs.symm⟩
  · rw [if_pos h4] at hrun
    simp at hrun

/-- The processing stage returns `None` exactly on encode failure. -/
theorem process_and_store_fst_none (env : Env) (fs1 : FS) (img : Img)
    (u t : String) (tw th : Nat)
    (h4 : env.encodeOk = false) :
    (process_and_store env fs1 img u t tw th).1 = none := by
  simp only [process_and_store]
  rw [if_pos (by rw [h4]; simp)]

/-- Success of the try block: `save` and encode succeeded and the image
decoded. -/
theorem try_save_success (env : Env) (fs : FS) (f : FileStorage)
    (u t : String) (tw th : Nat) (out : String) (fsOut : FS)
    (hrun : try_save_and_process env fs f u t tw th = (some out, fsOut)) :
    env.saveOk = true ∧ ∃ img, env.decode = some img ∧
      process_and_store env (fsWrite fs t (FileData.raw f.content)) img u t tw th
        = (some out, fsOut) := by
  rw [try_save_and_process] at hrun
  by_cases h3 : env.saveOk = true
  · rw [if_neg (not_not_intro h3)] at hrun
    cases hdec : env.decode with
    | none =>
      rw [hdec] at hrun
      simp at hrun
    | some img =>
      rw [hdec] at hrun
      exact ⟨h3, img, rfl, hrun⟩
  · rw [if_pos h3] at hrun
    simp at hrun

/-- Success of the whole pipeline: the guards passed and the try block
succeeded. -/
theorem save_and_crop_success_cases (env : Env) (fs : FS) (f : FileStorage)
    (tw th : Nat) (out : String) (fsOut : FS)
    (hrun : save_and_crop_image env fs (some f) tw th = (some out, fsOut)) :
    ¬ f.filename = "" ∧ allowed_file (secure_filename f.filename) = true ∧
    try_save_and_process env fs f (uniqueName env f) (tmpName env f) tw th
      = (some out, fsOut) := by
  rw [save_and_crop_image] at hrun
  by_cases h1 : f.filename = ""
  · rw [if_pos h1] at hrun
    simp at hrun
  · rw [if_neg h1] at hrun
    by_cases h2 : allowed_file (secure_filename f.filename) = true
    · rw [if_neg (not_not_intro h2)] at hrun
      exact ⟨h1, h2, hrun⟩
    · rw [if_pos h2] at hrun
      simp at hrun

/-- Full success specification of the pipeline: the returned name is
`{sanitized base}_{final hex}.jpg` and reading it back from the
resulting directory yields the quality-90 JPEG at exactly the target
dimensions (the distinct, dot-free uuid hex draws keep the cleanup of
the temp file from touching the final file). -/
theorem save_and_crop_success_spec (env : Env) (fs : FS) (f : FileStorage)
    (tw th : Nat) (out : String) (fsOut : FS)
    (hh1 : '.' ∉ env.tmpHex.data) (hh2 : '.' ∉ env.finalHex.data)
    (hhne : ¬ env.tmpHex = env.finalHex)
    (hrun : save_and_crop_image env fs (some f) tw th = (some out, fsOut)) :
    out = uniqueName env f ∧
    fsRead fsOut out = some (FileData.jpeg 90 tw th) ∧
    env.saveOk = true ∧ env.encodeOk = true ∧
    ∃ img, env.decode = some img := by
  obtain ⟨-, -, htry⟩ := save_and_crop_success_cases env fs f tw th out fsOut hrun
  obtain ⟨hsave, img, hdec, hproc⟩ := try_save_success env fs f _ _ tw th out fsOut htry
  obtain ⟨ho, henc, hfs⟩ := process_and_store_success env _ img _ _ tw th out fsOut hproc
  have hneq : ¬ tmpName env f = uniqueName env f := by
    rw [tmpName, uniqueName]
    exact tmp_ne_unique (splitext (secure_filename f.filename)).1
      (splitext (secure_filename f.filename)).2 env.tmpHex env.finalHex
      (splitext_ext_shape (secure_filename f.filename)) hh1 hh2 hhne
  subst ho
  subst hfs
  refine ⟨rfl, ?_, hsave, henc, ⟨img, hdec⟩⟩
  rw [fsRead_cleanupTmp_ne env _ _ _ hneq]
  exact fsRead_fsWrite_self _ _ _

/-- On any failing step (`save`, decode, or encode) the pipeline returns
`None`. -/
theorem save_and_crop_none_of_failure (env : Env) (fs : FS) (f : FileStorage)
    (tw th : Nat)
    (hfail : env.saveOk = false ∨ env.decode = none ∨ env.encodeOk = false) :
    (save_and_crop_image env fs (some f) tw th).1 = none := by
  cases hres : (save_and_crop_image env fs (some f) tw th).1 with
  | none => rfl
  | some out =>
    exfalso
    have hpair : save_and_crop_image env fs (some f) tw th
        = (some out, (save_and_crop_image env fs (some f) tw th).2) := by
      rw [← hres]
    obtain ⟨-, -, htry⟩ := save_and_crop_success_cases env fs f tw th out _ hpair
    obtain ⟨hsave, img, hdec, hproc⟩ := try_save_success env fs f _ _ tw th out _ htry
    obtain ⟨-, henc, -⟩ := process_and_store_success env _ img _ _ tw th out _ hproc
    rcases hfail with hf | hf | hf
    · rw [hsave] at hf
      exact absurd hf (by simp)
    · rw [hdec] at hf
      exact Option.some_ne_none img hf
    · rw [henc] at hf
      exact absurd hf (by simp)

/-- The value returned by the processing stage does not depend on whether
`os.remove` succeeds. -/
theorem process_and_store_fst_ignores_removeOk (env : Env) (fs1 : FS) (img : Img)
    (u t : String) (tw th : Nat) :
    (process_and_store env fs1 img u t tw th).1 =
      (process_and_store
        (Env.mk env.tmpHex env.finalHex env.saveOk env.decode env.encodeOk true)
        fs1 img u t tw th).1 := by
  simp only [process_and_store]
  by_cases h4 : env.encodeOk = true
  · simp only [if_neg (not_not_intro h4)]
  · simp only [if_pos h4]

/-- The value returned by the try block does not depend on whether
`os.remove` succeeds. -/
theorem try_save_fst_ignores_removeOk (env : Env) (fs : FS) (f : FileStorage)
    (u t : String) (tw th : Nat) :
    (try_save_and_process env fs f u t tw th).1 =
      (try_save_and_process
        (Env.mk env.tmpHex env.finalHex env.saveOk env.decode env.encodeOk true)
        fs f u t tw th).1 := by
  simp only [try_save_and_process]
  by_cases h3 : env.saveOk = true
  · simp only [if_neg (not_not_intro h3)]
    cases hdec : env.decode with
    | none => rfl
    | some img => exact process_and_store_fst_ignores_removeOk env _ img u t tw th
  · simp only [if_pos h3]

/-- Whether os.remove succeeds never changes the returned value of the
pipeline, only (possibly) the surviving temp file. -/
theorem save_and_crop_result_ignores_removeOk (env : Env) (fs : FS)
    (f : FileStorage) (tw th : Nat) :
    (save_and_crop_image env fs (some f) tw th).1 =
      (save_and_crop_image
        (Env.mk env.tmpHex env.finalHex env.saveOk env.decode env.encodeOk true)
        fs (some f) tw th).1 := by
  simp only [save_and_crop_image]
  by_cases h1 : f.filename = ""
  · simp only [if_pos h1]
  · simp only [if_neg h1]
    by_cases h2 : allowed_file (secure_filename f.filename) = true
    · simp only [if_neg (not_not_intro h2)]
      have hu : uniqueName
          (Env.mk env.tmpHex env.finalHex env.saveOk env.decode env.encodeOk true) f
          = uniqueName env f := rfl
      have ht : tmpName
          (Env.mk env.tmpHex env.finalHex env.saveOk env.decode env.encodeOk true) f
          = tmpName env f := rfl
      rw [hu, ht]
      exact try_save_fst_ignores_removeOk env fs f _ _ tw th
    · simp only [if_pos h2]

/-- The processing stage always ends with the temp cleanup. -/
theorem process_and_store_snd (env : Env) (fs1 : FS) (img : Img)
    (u t : String) (tw th : Nat) :
    ∃ X, (process_and_store env fs1 img u t tw th).2 = cleanupTmp env X t := by
  simp only [process_and_store]
  by_cases h4 : env.encodeOk = true
  · simp only [if_neg (not_not_intro h4)]
    exact ⟨_, rfl⟩
  · simp only [if_pos h4]
    exact ⟨_, rfl⟩

/-- The try block always ends with the temp cleanup. -/
theorem try_save_snd (env : Env) (fs : FS) (f : FileStorage)
    (u t : String) (tw th : Nat) :
    ∃ X, (try_save_and_process env fs f u t tw th).2 = cleanupTmp env X t := by
  simp only [try_save_and_process]
  by_cases h3 : env.saveOk = true
  · simp only [if_neg (not_not_intro h3)]
    cases hdec : env.decode with
    | none => exact ⟨_, rfl⟩
    | some img => exact process_and_store_snd env _ img u t tw th
  · simp only [if_pos h3]
    exact ⟨_, rfl⟩

/-- The upload directory after a pipeline call is either untouched (the
early-return paths) or the result of the temp-file cleanup applied to
some intermediate directory. -/
theorem save_and_crop_snd_cases (env : Env) (fs : FS) (f : FileStorage)
    (tw th : Nat) :
    (save_and_crop_image env fs (some f) tw th).2 = fs ∨
    ∃ X, (save_and_crop_image env fs (some f) tw th).2
        = cleanupTmp env X (tmpName env f) := by
  simp only [save_and_crop_image]
  by_cases h1 : f.filename = ""
  · simp only [if_pos h1]
    left
    trivial
  · simp only [if_neg h1]
    by_cases h2 : allowed_file (secure_filename f.filename) = true
    · simp only [if_neg (not_not_intro h2)]
      right
      exact try_save_snd env fs f _ _ tw th
    · simp only [if_pos h2]
      left
      trivial

/-- When `os.remove` works, no invocation of the pipeline leaves the temp
file behind (provided the uuid-fresh temp name was not already a file). -/
theorem save_and_crop_no_temp_left (env : Env) (fs : FS) (f : FileStorage)
    (tw th : Nat)
    (hok : env.removeOk = true)
    (hfresh : fsExists fs (tmpName env f) = false) :
    fsExists (save_and_crop_image env fs (some f) tw th).2 (tmpName env f) = false := by
  rcases save_and_crop_snd_cases env fs f tw th with h | ⟨X, h⟩
  · rw [h]
    exact hfresh
  · rw [h]
    exact fsExists_cleanupTmp_self env X _ hok

/-! ### Lemmas: `pyStrip` ignores outer whitespace; guard rejections -/

theorem dropWhile_append_all (p : Char → Bool) (a b : List Char)
    (ha : ∀ c ∈ a, p c = true) : (a ++ b).dropWhile p = b.dropWhile p := by
  induction a with
  | nil => rfl
  | cons c a2 ih =>
    rw [List.cons_append, List.dropWhile_cons, if_pos (ha c (List.mem_cons_self c a2))]
    exact ih fun d hd => ha d (List.mem_cons_of_mem _ hd)

theorem dropWhile_all_nil (p : Char → Bool) (a : List Char)
    (ha : ∀ c ∈ a, p c = true) : a.dropWhile p = [] := by
  have h := dropWhile_append_all p a [] ha
  simpa using h

/-- Padding a string with leading and trailing whitespace does not change
its `strip()`. -/
theorem pyStrip_pad (ws1 ws2 : List Char) (s : String)
    (hw1 : ∀ c ∈ ws1, isPySpace c = true) (hw2 : ∀ c ∈ ws2, isPySpace c = true) :
    pyStrip (String.mk (ws1 ++ s.data ++ ws2)) = pyStrip s := by
  rw [pyStrip, pyStrip]
  congr 1
  rw [List.append_assoc, dropWhile_append_all isPySpace ws1 _ hw1]
  rw [List.dropWhile_append]
  by_cases he : (s.data.dropWhile isPySpace).isEmpty = true
  · rw [if_pos he]
    have h0 : s.data.dropWhile isPySpace = [] := by
      simpa [List.isEmpty_iff] using he
    rw [h0, dropWhile_all_nil isPySpace ws2 hw2]
  · rw [if_neg he]
    rw [List.reverse_append]
    rw [dropWhile_append_all isPySpace ws2.reverse _
      (fun c hc => hw2 c (List.mem_reverse.mp hc))]

/-- A sanitized filename that fails the extension allow-list makes the
pipeline return `None` without touching the upload directory. -/
theorem save_and_crop_rejects (env : Env) (fs : FS) (f : FileStorage) (tw th : Nat)
    (h : ¬ allowed_file (secure_filename f.filename) = true) :
    save_and_crop_image env fs (some f) tw th = (none, fs) := by
  rw [save_and_crop_image]
  by_cases h1 : f.filename = ""
  · rw [if_pos h1]
  · rw [if_neg h1, if_pos h]

/-! ### Lemmas: computable characterizations

`resizeDims` uses exact rational arithmetic, which the kernel cannot
evaluate (rational normalization runs `Nat.gcd`).  The following
characterizations express the pipeline through natural-number division
so concrete runs can be checked by `decide`. -/

/-- Characterization of `resizeDims` through natural-number division. -/
theorem resizeDims_eq_div (w h target_w target_h : Nat)
    (hh : 0 < h) (hth : 0 < target_h) :
    resizeDims w h target_w target_h =
      if target_w * h < w * target_h
      then ((w * target_h) / h, target_h)
      else (target_w, (h * target_w) / w) := by
  have hhq : (0 : ℚ) < (h : ℚ) := by exact_mod_cast hh
  have hthq : (0 : ℚ) < (target_h : ℚ) := by exact_mod_cast hth
  have hcond : ((target_w : ℚ) / (target_h : ℚ) < (w : ℚ) / (h : ℚ))
      ↔ (target_w * h < w * target_h) := by
    rw [div_lt_div_iff₀ hthq hhq]
    constructor
    · intro hx
      exact_mod_cast hx
    · intro hx
      exact_mod_cast hx
  have e1 : (⌊(w : ℚ) * ((target_h : ℚ) / (h : ℚ))⌋).toNat = (w * target_h) / h := by
    rw [mul_div_assoc']
    have hx : (w : ℚ) * (target_h : ℚ) = ((w * target_h : ℕ) : ℚ) := by push_cast; ring
    rw [hx, Rat.floor_natCast_div_natCast]
    rfl
  have e2 : (⌊(h : ℚ) * ((target_w : ℚ) / (w : ℚ))⌋).toNat = (h * target_w) / w := by
    rw [mul_div_assoc']
    have hx : (h : ℚ) * (target_w : ℚ) = ((h * target_w : ℕ) : ℚ) := by push_cast; ring
    rw [hx, Rat.floor_natCast_div_natCast]
    rfl
  by_cases hc : (target_w : ℚ) / (target_h : ℚ) < (w : ℚ) / (h : ℚ)
  · rw [if_pos (hcond.mp hc)]
    simp only [resizeDims, if_pos hc]
    rw [e1]
  · rw [if_neg (fun hx => hc (hcond.mpr hx))]
    simp only [resizeDims, if_neg hc]
    rw [e2]

/-- The processing stage, with the crop-box dimensions evaluated: the
stored JPEG always has exactly the target dimensions. -/
theorem process_and_store_eval (env : Env) (fs1 : FS) (img : Img)
    (u t : String) (tw th : Nat) :
    process_and_store env fs1 img u t tw th =
      if ¬ env.encodeOk = true then (none, cleanupTmp env fs1 t)
      else (some u,
        cleanupTmp env (fsWrite fs1 u (FileData.jpeg 90 tw th)) t) := by
  simp only [process_and_store,
    (cropBox_dims (resizeDims img.width img.height tw th).1
      (resizeDims img.width img.height tw th).2 tw th).1,
    (cropBox_dims (resizeDims img.width img.height tw th).1
      (resizeDims img.width img.height tw th).2 tw th).2]

/-- The whole pipeline in kernel-evaluable form. -/
theorem save_and_crop_eval (env : Env) (fs : FS) (f : FileStorage) (tw th : Nat) :
    save_and_crop_image env fs (some f) tw th =
      if f.filename = "" then (none, fs)
      else if ¬ allowed_file (secure_filename f.filename) = true then (none, fs)
      else if ¬ env.saveOk = true then (none, cleanupTmp env fs (tmpName env f))
      else
        match env.decode with
        | none =>
          (none, cleanupTmp env (fsWrite fs (tmpName env f) (FileData.raw f.content))
            (tmpName env f))
        | some _ =>
          if ¬ env.encodeOk = true then
            (none, cleanupTmp env (fsWrite fs (tmpName env f) (FileData.raw f.content))
              (tmpName env f))
          else
            (some (uniqueName env f),
             cleanupTmp env
               (fsWrite (fsWrite fs (tmpName env f) (FileData.raw f.content))
                 (uniqueName env f) (FileData.jpeg 90 tw th))
               (tmpName env f)) := by
  rw [save_and_crop_image]
  by_cases h1 : f.filename = ""
  · rw [if_pos h1, if_pos h1]
  · rw [if_neg h1, if_neg h1]
    by_cases h2 : allowed_file (secure_filename f.filename) = true
    · rw [if_neg (not_not_intro h2), if_neg (not_not_intro h2)]
      rw [try_save_and_process]
      by_cases h3 : env.saveOk = true
      · rw [if_neg (not_not_intro h3), if_neg (not_not_intro h3)]
        cases hdec : env.decode with
        | none => rfl
        | some img =>
          simp only [process_and_store_eval]
      · rw [if_pos h3, if_pos h3]
    · rw [if_pos h2, if_pos h2]

/-- A concrete environment for the closed instances below: distinct
dot-free uuid hex draws, a decodable 900×350 source image, and all I/O
succeeding. -/
def envOk : Env := Env.mk "aaaa" "bbbb" true (some (Img.mk 900 350)) true true

/-- Like `envOk` but the uploaded bytes fail to decode (`Image.open`
raises). -/
def envNoDecode : Env := Env.mk "aaaa" "bbbb" true none true true

/-! ### Helper: `Int.fdiv` by two is rational floor division by two -/

theorem fdiv_two_eq_ediv_two : ∀ a : ℤ, a.fdiv 2 = a / 2
  | Int.ofNat 0 => rfl
  | Int.ofNat (Nat.succ _) => rfl
  | Int.negSucc _ => rfl

theorem fdiv_two_eq_floor (a : ℤ) : a.fdiv 2 = ⌊((a : ℚ) / 2)⌋ := by
  rw [fdiv_two_eq_ediv_two]
  have h2 : ((2 : ℕ) : ℚ) = (2 : ℚ) := by norm_num
  rw [← h2, Rat.floor_intCast_div_natCast a 2]
  rfl

/-! ### The claims -/

/-! ### C1 and C2: the float truncation bug at ratio-boundary inputs

The exact-rational model `resizeDims` is NOT what the program computes at
every input: Python evaluates the scale and the product in IEEE binary64
arithmetic.  At a 873×679 source (aspect ratio exactly 9:7, equal to the
450:350 target ratio) the program takes the else branch (both ratio
divisions are correctly rounded quotients of the same real number 9:7,
hence the same double, so the branch agrees with the exact model) and
then computes

  new_height = int(679 * (450/873)) = int(349.99999999999994) = 349,

one below the exact proportional value 350 that the spec's cover-fit
rule ("will be ≥ target_h") calls for.  The two rounding steps are
certified below in pure integer arithmetic: `scaleMantissa` / 2^53 is
the unique double within half an ulp of 450/873 (binade [1/2, 1)), and
`prodMantissa` / 2^44 is the unique double within half an ulp of the
exact product 679 · `scaleMantissa` / 2^53 (binade [256, 512)); the
strict bounds make tie-breaking irrelevant.  Truncation of the product
gives 349. -/

/-- Mantissa of the IEEE binary64 double nearest to 450/873: the double
is `scaleMantissa` / 2^53, which lies in the binade [1/2, 1). -/
def scaleMantissa : ℤ := 4642886213784016

/-- Mantissa of the IEEE binary64 double nearest to the exact product
679 · (`scaleMantissa` / 2^53): the double is `prodMantissa` / 2^44,
which lies in the binade [256, 512). -/
def prodMantissa : ℤ := 6157265115545599

/-- C1 (code bug): the claim (and the spec line "will be ≥ target_h")
says the truncated scaled dimension is always ≥ the target, so the crop
box never exceeds the scaled image.  At a 873×679 source with the
default 450×350 target the intended exact-arithmetic scaling (the model
`resizeDims`) gives (450, 350), but the program's IEEE double
evaluation of int(679 * (450/873)) — certified by the round-to-nearest
mantissa bounds below — yields 349 < 350, and the crop box becomes
(0, -1, 450, 349): its top lies outside the scaled image.  Its size is
still 450×350, so the stored output keeps the target dimensions only
because the library crop pads the missing row with black. -/
theorem resize_below_target_code_bug :
    resizeDims 873 679 450 350 = (450, 350) ∧
    (2 ^ 52 ≤ scaleMantissa ∧ scaleMantissa < 2 ^ 53 ∧
     |450 * 2 ^ 53 - 873 * scaleMantissa| * 2 < 873) ∧
    (2 ^ 52 ≤ prodMantissa ∧ prodMantissa < 2 ^ 53 ∧
     |679 * scaleMantissa - prodMantissa * 2 ^ 9| * 2 < 2 ^ 9) ∧
    prodMantissa / 2 ^ 44 = 349 ∧
    (349 : ℕ) < 350 ∧
    cropBox 450 349 450 350 = (0, -1, 450, 349) ∧
    (cropBox 450 349 450 350).2.1 < 0 ∧
    ((cropBox 450 349 450 350).2.2.1 - (cropBox 450 349 450 350).1 = 450 ∧
     (cropBox 450 349 450 350).2.2.2 - (cropBox 450 349 450 350).2.1 = 350) := by
  refine ⟨?_, by decide, by decide, by decide, by decide, by decide, by decide, by decide⟩
  rw [resizeDims_eq_div 873 679 450 350 (by decide) (by decide)]
  decide

/-- C2 (code bug): the crop offsets and the crop box follow the claimed
integer formulas (src/app.py lines 128-131 are pure integer arithmetic,
embedded faithfully by `cropBox`), and the claimed 900×350 → 450×350
instance crops from left = 225 (that trace is float-exact: the scale is
exactly 1.0); but the proportional-scaling part of the cover-fit rule
fails in the program: at a 873×679 source the rule calls for
new_height = 350 (the value of the exact model `resizeDims`), while the
IEEE double evaluation of int(679 * (450/873)) — certified by the
mantissa bounds below — yields 349. -/
theorem cover_fit_rule_code_bug (nw nh target_w target_h : Nat) :
    (cropBox nw nh target_w target_h).1 = ⌊(((nw : ℚ) - (target_w : ℚ)) / 2)⌋ ∧
    (cropBox nw nh target_w target_h).2.1 = ⌊(((nh : ℚ) - (target_h : ℚ)) / 2)⌋ ∧
    (cropBox nw nh target_w target_h).2.2.1
      = (cropBox nw nh target_w target_h).1 + target_w ∧
    (cropBox nw nh target_w target_h).2.2.2
      = (cropBox nw nh target_w target_h).2.1 + target_h ∧
    resizeDims 900 350 450 350 = (900, 350) ∧
    cropBox 900 350 450 350 = (225, 0, 675, 350) ∧
    resizeDims 873 679 450 350 = (450, 350) ∧
    (|450 * 2 ^ 53 - 873 * scaleMantissa| * 2 < 873 ∧
     |679 * scaleMantissa - prodMantissa * 2 ^ 9| * 2 < 2 ^ 9 ∧
     prodMantissa / 2 ^ 44 = 349) := by
  refine ⟨?_, ?_, rfl, rfl, ?_, by decide, ?_, by decide⟩
  · simp only [cropBox, fdiv_two_eq_floor]
    have hc : ((((nw : ℤ) - (target_w : ℤ)) : ℤ) : ℚ)
        = ((nw : ℚ) - (target_w : ℚ)) := by push_cast; ring
    rw [hc]
  · simp only [cropBox, fdiv_two_eq_floor]
    have hc : ((((nh : ℤ) - (target_h : ℤ)) : ℤ) : ℚ)
        = ((nh : ℚ) - (target_h : ℚ)) := by push_cast; ring
    rw [hc]
  · rw [resizeDims_eq_div 900 350 450 350 (by decide) (by decide)]
    decide
  · rw [resizeDims_eq_div 873 679 450 350 (by decide) (by decide)]
    decide


/-- C3 counterexample: the client filename a.jpg! has the extension jpg!
after its last dot, which is outside the allow-list, so the claim
predicts rejection; but the pipeline sanitizes the name first
(the sanitizer drops the exclamation mark), accepts a.jpg, stores a file and
returns its name. -/
theorem client_extension_check_counterexample :
    allowed_file "a.jpg!" = false ∧
    save_and_crop_image envOk [] (some (FileStorage.mk "a.jpg!" 0)) 450 350
      = (some "a_bbbb.jpg", [("a_bbbb.jpg", FileData.jpeg 90 450 350)]) := by
  constructor
  · decide
  · rw [save_and_crop_eval]
    decide

/-- C3 (amended): for every uploaded file whose *sanitized* filename
(after `secure_filename`) has no dot or an extension outside
{png, jpg, jpeg, gif}, the pipeline returns `None` and leaves the upload
directory untouched (no temporary or final file is written). -/
theorem invalid_extension_rejected (env : Env) (fs : FS) (f : FileStorage)
    (tw th : Nat)
    (h : allowed_file (secure_filename f.filename) = false) :
    save_and_crop_image env fs (some f) tw th = (none, fs) :=
  save_and_crop_rejects env fs f tw th (by rw [h]; exact Bool.false_ne_true)

/-- Closed instance of the amended C3: virus.exe is rejected with no
file written. -/
theorem invalid_extension_rejected_witness :
    allowed_file (secure_filename "virus.exe") = false ∧
    save_and_crop_image envOk [] (some (FileStorage.mk "virus.exe" 0)) 450 350
      = (none, []) :=
  ⟨by decide,
   invalid_extension_rejected envOk [] (FileStorage.mk "virus.exe" 0) 450 350 (by decide)⟩

/-- C4: every invocation that could write a temporary file removes it
before returning (when `os.remove` works), on the success path and every
failure path; a failed removal never changes the returned value; and
every processing failure (save, decode, encode) surfaces as `None`,
never as an exception (the embedding is total by construction). -/
theorem temp_file_cleanup (env : Env) (fs : FS) (f : FileStorage)
    (tw th : Nat)
    (hfresh : fsExists fs (tmpName env f) = false) :
    (env.removeOk = true →
      fsExists (save_and_crop_image env fs (some f) tw th).2 (tmpName env f) = false) ∧
    (save_and_crop_image env fs (some f) tw th).1 =
      (save_and_crop_image
        (Env.mk env.tmpHex env.finalHex env.saveOk env.decode env.encodeOk true)
        fs (some f) tw th).1 ∧
    ((env.saveOk = false ∨ env.decode = none ∨ env.encodeOk = false) →
      (save_and_crop_image env fs (some f) tw th).1 = none) :=
  ⟨fun hok => save_and_crop_no_temp_left env fs f tw th hok hfresh,
   save_and_crop_result_ignores_removeOk env fs f tw th,
   fun hfail => save_and_crop_none_of_failure env fs f tw th hfail⟩

/-- Closed instance of C4: a decode failure cleans up the temp file and
returns `None`. -/
theorem temp_file_cleanup_witness :
    (envNoDecode.removeOk = true →
      fsExists (save_and_crop_image envNoDecode [] (some (FileStorage.mk "photo.jpg" 0)) 450 350).2
        (tmpName envNoDecode (FileStorage.mk "photo.jpg" 0)) = false) ∧
    (save_and_crop_image envNoDecode [] (some (FileStorage.mk "photo.jpg" 0)) 450 350).1 =
      (save_and_crop_image
        (Env.mk envNoDecode.tmpHex envNoDecode.finalHex envNoDecode.saveOk
          envNoDecode.decode envNoDecode.encodeOk true)
        [] (some (FileStorage.mk "photo.jpg" 0)) 450 350).1 ∧
    ((envNoDecode.saveOk = false ∨ envNoDecode.decode = none ∨ envNoDecode.encodeOk = false) →
      (save_and_crop_image envNoDecode [] (some (FileStorage.mk "photo.jpg" 0)) 450 350).1 = none) :=
  temp_file_cleanup envNoDecode [] (FileStorage.mk "photo.jpg" 0) 450 350 (by decide)

/-- C5 counterexample: submitting the admin project form with a blank
name but a valid attached image inserts no record and flashes an error,
yet the processed image file is written and left in the upload
directory — a state change the claim rules out. -/
theorem validation_state_change_counterexample :
    (admin_projects_post envOk [] (ProjectsTable.mk [] 1)
      (ProjectForm.mk "" "A sample description") (some (FileStorage.mk "photo.jpg" 0))).2.1
      = ProjectsTable.mk [] 1 ∧
    (admin_projects_post envOk [] (ProjectsTable.mk [] 1)
      (ProjectForm.mk "" "A sample description") (some (FileStorage.mk "photo.jpg" 0))).2.2.1
      = Flash.error "Please provide project name and description." ∧
    (admin_projects_post envOk [] (ProjectsTable.mk [] 1)
      (ProjectForm.mk "" "A sample description") (some (FileStorage.mk "photo.jpg" 0))).1
      = [("photo_bbbb.jpg", FileData.jpeg 90 450 350)] ∧
    ¬ ((admin_projects_post envOk [] (ProjectsTable.mk [] 1)
      (ProjectForm.mk "" "A sample description") (some (FileStorage.mk "photo.jpg" 0))).1
        = ([] : FS)) := by
  simp only [admin_projects_post, handle_image_upload, save_and_crop_eval]
  decide

/-- C5 (amended): for every form submission with a missing, empty, or
whitespace-only required field the handler inserts no record, flashes a
transient error message, and responds normally (redirect or re-rendered
list); the database is untouched — but for the two admin forms an
attached image is processed *before* validation, so an image file may
still be written to the upload directory. -/
theorem validation_failure_no_insert
    (cdb : ContactsTable) (cform : ContactForm) (now1 : String)
    (sdb : SubscriptionsTable) (em : String) (now2 : String)
    (env1 : Env) (fs1 : FS) (pdb : ProjectsTable) (pform : ProjectForm)
    (pimg : Option FileStorage)
    (env2 : Env) (fs2 : FS) (kdb : ClientsTable) (kform : ClientForm)
    (kimg : Option FileStorage)
    (h1 : pyStrip cform.full_name = "" ∨ pyStrip cform.email = ""
        ∨ pyStrip cform.mobile = "" ∨ pyStrip cform.city = "")
    (h2 : pyStrip em = "")
    (h3 : pyStrip pform.name = "" ∨ pyStrip pform.description = "")
    (h4 : pyStrip kform.name = "" ∨ pyStrip kform.designation = ""
        ∨ pyStrip kform.description = "") :
    contact_submit cdb cform now1
      = (cdb, Flash.error "Please fill all contact form fields.",
         Response.redirect "index") ∧
    subscribe sdb em now2
      = (sdb, Flash.error "Please enter an email address.",
         Response.redirect "index") ∧
    (admin_projects_post env1 fs1 pdb pform pimg).2
      = (pdb, Flash.error "Please provide project name and description.",
         Response.render "admin/projects.html") ∧
    (admin_clients_post env2 fs2 kdb kform kimg).2
      = (kdb, Flash.error "Please provide client name, designation and description.",
         Response.render "admin/clients.html") := by
  refine ⟨?_, ?_, ?_, ?_⟩
  · simp only [contact_submit]
    rw [if_pos h1]
  · simp only [subscribe]
    rw [if_pos h2]
  · simp only [admin_projects_post]
    rw [if_pos h3]
  · simp only [admin_clients_post]
    rw [if_pos h4]

/-- Closed instance of the amended C5: entirely blank submissions. -/
theorem validation_failure_no_insert_witness :
    contact_submit (ContactsTable.mk [] 1) (ContactForm.mk "" "" "" "") "t1"
      = (ContactsTable.mk [] 1, Flash.error "Please fill all contact form fields.",
         Response.redirect "index") ∧
    subscribe (SubscriptionsTable.mk [] 1) "  " "t2"
      = (SubscriptionsTable.mk [] 1, Flash.error "Please enter an email address.",
         Response.redirect "index") ∧
    (admin_projects_post envOk [] (ProjectsTable.mk [] 1) (ProjectForm.mk " " "d") none).2
      = (ProjectsTable.mk [] 1, Flash.error "Please provide project name and description.",
         Response.render "admin/projects.html") ∧
    (admin_clients_post envOk [] (ClientsTable.mk [] 1) (ClientForm.mk "n" "" "d") none).2
      = (ClientsTable.mk [] 1,
         Flash.error "Please provide client name, designation and description.",
         Response.render "admin/clients.html") :=
  validation_failure_no_insert (ContactsTable.mk [] 1) (ContactForm.mk "" "" "" "") "t1"
    (SubscriptionsTable.mk [] 1) "  " "t2"
    envOk [] (ProjectsTable.mk [] 1) (ProjectForm.mk " " "d") none
    envOk [] (ClientsTable.mk [] 1) (ClientForm.mk "n" "" "d") none
    (by decide) (by decide) (by decide) (by decide)

/-- The stored `image_filename` of an admin create is `None` exactly when
no image was supplied, the upload had an empty filename, or the pipeline
failed. -/
theorem handle_image_upload_none_iff (env : Env) (fs : FS)
    (img : Option FileStorage) :
    (handle_image_upload env fs img).1 = none ↔
      img = none ∨ ∃ i, img = some i ∧
        (i.filename = "" ∨ (save_and_crop_image env fs (some i) 450 350).1 = none) := by
  cases img with
  | none => simp [handle_image_upload]
  | some i =>
    by_cases hf : i.filename = ""
    · simp [handle_image_upload, hf]
    · simp [handle_image_upload, hf]

/-- C6: a project or client creation whose text fields are valid but
whose attached image fails processing still inserts the record — with a
null `image_filename` — and flashes success; `image_filename` is null
exactly when no image was supplied or processing failed. -/
theorem image_failure_still_inserts
    (env1 : Env) (fs1 : FS) (pdb : ProjectsTable) (pform : ProjectForm)
    (pimg : Option FileStorage)
    (env2 : Env) (fs2 : FS) (kdb : ClientsTable) (kform : ClientForm)
    (kimg : Option FileStorage)
    (hp1 : ¬ pyStrip pform.name = "") (hp2 : ¬ pyStrip pform.description = "")
    (hk1 : ¬ pyStrip kform.name = "") (hk2 : ¬ pyStrip kform.designation = "")
    (hk3 : ¬ pyStrip kform.description = "") :
    ((admin_projects_post env1 fs1 pdb pform pimg).2.1
      = ProjectsTable.mk
          (pdb.rows ++ [ProjectRow.mk pdb.nextId (pyStrip pform.name)
            (pyStrip pform.description) (handle_image_upload env1 fs1 pimg).1])
          (pdb.nextId + 1) ∧
     (admin_projects_post env1 fs1 pdb pform pimg).2.2.1
      = Flash.success "Project added!" ∧
     ((handle_image_upload env1 fs1 pimg).1 = none ↔
       pimg = none ∨ ∃ i, pimg = some i ∧
         (i.filename = "" ∨ (save_and_crop_image env1 fs1 (some i) 450 350).1 = none))) ∧
    ((admin_clients_post env2 fs2 kdb kform kimg).2.1
      = ClientsTable.mk
          (kdb.rows ++ [ClientRow.mk kdb.nextId (pyStrip kform.name)
            (pyStrip kform.designation) (pyStrip kform.description)
            (handle_image_upload env2 fs2 kimg).1])
          (kdb.nextId + 1) ∧
     (admin_clients_post env2 fs2 kdb kform kimg).2.2.1
      = Flash.success "Client added!" ∧
     ((handle_image_upload env2 fs2 kimg).1 = none ↔
       kimg = none ∨ ∃ i, kimg = some i ∧
         (i.filename = "" ∨ (save_and_crop_image env2 fs2 (some i) 450 350).1 = none))) := by
  constructor
  · refine ⟨?_, ?_, handle_image_upload_none_iff env1 fs1 pimg⟩
    · simp only [admin_projects_post]
      rw [if_neg (fun hcon => hcon.elim hp1 hp2)]
    · simp only [admin_projects_post]
      rw [if_neg (fun hcon => hcon.elim hp1 hp2)]
  · refine ⟨?_, ?_, handle_image_upload_none_iff env2 fs2 kimg⟩
    · simp only [admin_clients_post]
      rw [if_neg (fun hcon => hcon.elim hk1 (fun hcon2 => hcon2.elim hk2 hk3))]
    · simp only [admin_clients_post]
      rw [if_neg (fun hcon => hcon.elim hk1 (fun hcon2 => hcon2.elim hk2 hk3))]

/-- Closed instance of C6: valid fields with an image that fails to
decode yield inserted rows with a null image and success messages. -/
theorem image_failure_still_inserts_witness :
    ((admin_projects_post envNoDecode [] (ProjectsTable.mk [] 1)
        (ProjectForm.mk "Villa" "A described project")
        (some (FileStorage.mk "photo.jpg" 0))).2.1
      = ProjectsTable.mk
          ([] ++ [ProjectRow.mk 1 (pyStrip "Villa") (pyStrip "A described project")
            (handle_image_upload envNoDecode []
              (some (FileStorage.mk "photo.jpg" 0))).1]) (1 + 1) ∧
     (admin_projects_post envNoDecode [] (ProjectsTable.mk [] 1)
        (ProjectForm.mk "Villa" "A described project")
        (some (FileStorage.mk "photo.jpg" 0))).2.2.1
      = Flash.success "Project added!" ∧
     ((handle_image_upload envNoDecode [] (some (FileStorage.mk "photo.jpg" 0))).1 = none ↔
       some (FileStorage.mk "photo.jpg" 0) = none ∨
       ∃ i, some (FileStorage.mk "photo.jpg" 0) = some i ∧
         (i.filename = "" ∨
          (save_and_crop_image envNoDecode [] (some i) 450 350).1 = none))) ∧
    ((admin_clients_post envNoDecode [] (ClientsTable.mk [] 1)
        (ClientForm.mk "Jo" "CEO" "Great")
        (some (FileStorage.mk "photo.jpg" 0))).2.1
      = ClientsTable.mk
          ([] ++ [ClientRow.mk 1 (pyStrip "Jo") (pyStrip "CEO") (pyStrip "Great")
            (handle_image_upload envNoDecode []
              (some (FileStorage.mk "photo.jpg" 0))).1]) (1 + 1) ∧
     (admin_clients_post envNoDecode [] (ClientsTable.mk [] 1)
        (ClientForm.mk "Jo" "CEO" "Great")
        (some (FileStorage.mk "photo.jpg" 0))).2.2.1
      = Flash.success "Client added!" ∧
     ((handle_image_upload envNoDecode [] (some (FileStorage.mk "photo.jpg" 0))).1 = none ↔
       some (FileStorage.mk "photo.jpg" 0) = none ∨
       ∃ i, some (FileStorage.mk "photo.jpg" 0) = some i ∧
         (i.filename = "" ∨
          (save_and_crop_image envNoDecode [] (some i) 450 350).1 = none))) :=
  image_failure_still_inserts envNoDecode [] (ProjectsTable.mk [] 1)
    (ProjectForm.mk "Villa" "A described project") (some (FileStorage.mk "photo.jpg" 0))
    envNoDecode [] (ClientsTable.mk [] 1) (ClientForm.mk "Jo" "CEO" "Great")
    (some (FileStorage.mk "photo.jpg" 0))
    (by decide) (by decide) (by decide) (by decide) (by decide)

/-- C7: every successful pipeline run returns a name of the form
`{sanitized_base}_{random_hex}.jpg` — the extension is normalized to
`.jpg` regardless of the input extension — and the file stored under
that name is a JPEG encoded at quality 90, so the on-disk extension
matches the on-disk encoding. -/
theorem stored_filename_normalized (env : Env) (fs : FS) (f : FileStorage)
    (tw th : Nat) (out : String) (fsOut : FS)
    (hh1 : '.' ∉ env.tmpHex.data) (hh2 : '.' ∉ env.finalHex.data)
    (hhne : ¬ env.tmpHex = env.finalHex)
    (hrun : save_and_crop_image env fs (some f) tw th = (some out, fsOut)) :
    out = (splitext (secure_filename f.filename)).1 ++ "_" ++ env.finalHex ++ ".jpg" ∧
    fsRead fsOut out = some (FileData.jpeg 90 tw th) := by
  obtain ⟨ho, hread, -, -, -⟩ :=
    save_and_crop_success_spec env fs f tw th out fsOut hh1 hh2 hhne hrun
  exact ⟨by rw [ho, uniqueName], hread⟩

/-- Closed instance of C7: photo.jpg with hex draw bbbb is stored as
photo_bbbb.jpg, a quality-90 JPEG. -/
theorem stored_filename_normalized_witness :
    "photo_bbbb.jpg"
      = (splitext (secure_filename "photo.jpg")).1 ++ "_" ++ envOk.finalHex ++ ".jpg" ∧
    fsRead [("photo_bbbb.jpg", FileData.jpeg 90 450 350)] "photo_bbbb.jpg"
      = some (FileData.jpeg 90 450 350) :=
  stored_filename_normalized envOk [] (FileStorage.mk "photo.jpg" 0) 450 350
    "photo_bbbb.jpg" [("photo_bbbb.jpg", FileData.jpeg 90 450 350)]
    (by decide) (by decide) (by decide) (by rw [save_and_crop_eval]; decide)

/-- C8: deleting a project (or client) by id: a missing id is a complete
no-op apart from the redirect (no rows change, no message); an existing
row is always removed (regardless of any file-removal failure) with a
deletion message flashed; a non-null referenced image file is removed
when `os.remove` works, and a null one raises no file error (the
directory is untouched); in every case the handler redirects to the
list page. -/
theorem delete_by_id_effects (removeOk : Bool) (fs1 : FS) (db1 : ProjectsTable)
    (pid : Nat) (fs2 : FS) (db2 : ClientsTable) (cid : Nat) :
    ((delete_project removeOk fs1 db1 pid).2.2.2 = Response.redirect "admin_projects" ∧
     (db1.rows.find? (fun r => r.id == pid) = none →
       delete_project removeOk fs1 db1 pid
         = (fs1, db1, none, Response.redirect "admin_projects")) ∧
     (∀ row, db1.rows.find? (fun r => r.id == pid) = some row →
       ((delete_project removeOk fs1 db1 pid).2.1.rows
          = db1.rows.filter (fun r => !(r.id == pid)) ∧
        (∀ r ∈ (delete_project removeOk fs1 db1 pid).2.1.rows, ¬ r.id = pid) ∧
        (delete_project removeOk fs1 db1 pid).2.2.1
          = some (Flash.success "Project deleted.") ∧
        (row.image_filename = none → (delete_project removeOk fs1 db1 pid).1 = fs1) ∧
        (∀ fname, row.image_filename = some fname → removeOk = true →
          fsExists (delete_project removeOk fs1 db1 pid).1 fname = false)))) ∧
    ((delete_client removeOk fs2 db2 cid).2.2.2 = Response.redirect "admin_clients" ∧
     (db2.rows.find? (fun r => r.id == cid) = none →
       delete_client removeOk fs2 db2 cid
         = (fs2, db2, none, Response.redirect "admin_clients")) ∧
     (∀ row, db2.rows.find? (fun r => r.id == cid) = some row →
       ((delete_client removeOk fs2 db2 cid).2.1.rows
          = db2.rows.filter (fun r => !(r.id == cid)) ∧
        (∀ r ∈ (delete_client removeOk fs2 db2 cid).2.1.rows, ¬ r.id = cid) ∧
        (delete_client removeOk fs2 db2 cid).2.2.1
          = some (Flash.success "Client deleted.") ∧
        (row.image_filename = none → (delete_client removeOk fs2 db2 cid).1 = fs2) ∧
        (∀ fname, row.image_filename = some fname → removeOk = true →
          fsExists (delete_client removeOk fs2 db2 cid).1 fname = false)))) := by
  constructor
  · simp only [delete_project]
    cases hfind : db1.rows.find? (fun r => r.id == pid) with
    | none =>
      refine ⟨rfl, fun _ => rfl, fun row hrow => absurd hrow (by simp)⟩
    | some row0 =>
      refine ⟨rfl, fun hnone => by simp at hnone, fun row hrow => ?_⟩
      rw [Option.some.injEq] at hrow
      subst hrow
      dsimp only
      refine ⟨rfl, ?_, rfl, ?_, ?_⟩
      · intro r hr
        have hmem := List.mem_filter.mp hr
        simpa using hmem.2
      · intro himg
        rw [himg]
      · intro fname himg hok
        rw [himg]
        dsimp only
        by_cases hex : fsExists fs1 fname = true
        · rw [if_pos hex, if_pos hok]
          exact fsExists_fsRemove_self fs1 fname
        · rw [if_neg hex]
          simpa using hex
  · simp only [delete_client]
    cases hfind : db2.rows.find? (fun r => r.id == cid) with
    | none =>
      refine ⟨rfl, fun _ => rfl, fun row hrow => absurd hrow (by simp)⟩
    | some row0 =>
      refine ⟨rfl, fun hnone => by simp at hnone, fun row hrow => ?_⟩
      rw [Option.some.injEq] at hrow
      subst hrow
      dsimp only
      refine ⟨rfl, ?_, rfl, ?_, ?_⟩
      · intro r hr
        have hmem := List.mem_filter.mp hr
        simpa using hmem.2
      · intro himg
        rw [himg]
      · intro fname himg hok
        rw [himg]
        dsimp only
        by_cases hex : fsExists fs2 fname = true
        · rw [if_pos hex, if_pos hok]
          exact fsExists_fsRemove_self fs2 fname
        · rw [if_neg hex]
          simpa using hex

/-! ### Lemmas: schema creation -/

theorem createTable_any_self (s : Schema) (t : TableDef) :
    (createTableIfNotExists s t).any (fun u => u.name == t.name) = true := by
  rw [createTableIfNotExists]
  by_cases h : s.any (fun u => u.name == t.name) = true
  · rw [if_pos h]
    exact h
  · rw [if_neg h, List.any_append]
    simp

theorem createTable_any_mono (s : Schema) (t : TableDef) (p : TableDef → Bool)
    (h : s.any p = true) : (createTableIfNotExists s t).any p = true := by
  rw [createTableIfNotExists]
  by_cases hc : s.any (fun u => u.name == t.name) = true
  · rw [if_pos hc]
    exact h
  · rw [if_neg hc, List.any_append, h]
    rfl

theorem createTable_noop (s : Schema) (t : TableDef)
    (h : s.any (fun u => u.name == t.name) = true) :
    createTableIfNotExists s t = s := by
  rw [createTableIfNotExists, if_pos h]

theorem createTable_names_nodup (s : Schema) (t : TableDef)
    (h : (s.map TableDef.name).Nodup) :
    ((createTableIfNotExists s t).map TableDef.name).Nodup := by
  rw [createTableIfNotExists]
  by_cases hc : s.any (fun u => u.name == t.name) = true
  · rw [if_pos hc]
    exact h
  · rw [if_neg hc, List.map_append]
    rw [List.nodup_append]
    refine ⟨h, by simp, ?_⟩
    intro a ha hb
    rw [Bool.not_eq_true, List.any_eq_false] at hc
    obtain ⟨u, hu, hua⟩ := List.mem_map.mp ha
    have hat : a = t.name := by simpa using hb
    exact (hc u hu) (by rw [beq_iff_eq, hua, hat])

/-- C9: schema initialization is idempotent: running it twice equals
running it once (in particular it never errors and never duplicates
tables — table names stay duplicate-free), and from an empty store it
creates exactly the four tables projects, clients, contacts,
subscriptions with their columns. -/
theorem schema_init_idempotent (s : Schema)
    (hnd : (s.map TableDef.name).Nodup) :
    init_db (init_db s) = init_db s ∧
    ((init_db s).map TableDef.name).Nodup ∧
    init_db []
      = [projectsTableDef, clientsTableDef, contactsTableDef, subscriptionsTableDef] := by
  have hp : (init_db s).any (fun u => u.name == projectsTableDef.name) = true := by
    rw [init_db]
    apply createTable_any_mono
    apply createTable_any_mono
    apply createTable_any_mono
    exact createTable_any_self s projectsTableDef
  have hc : (init_db s).any (fun u => u.name == clientsTableDef.name) = true := by
    rw [init_db]
    apply createTable_any_mono
    apply createTable_any_mono
    exact createTable_any_self _ clientsTableDef
  have hco : (init_db s).any (fun u => u.name == contactsTableDef.name) = true := by
    rw [init_db]
    apply createTable_any_mono
    exact createTable_any_self _ contactsTableDef
  have hsu : (init_db s).any (fun u => u.name == subscriptionsTableDef.name) = true := by
    rw [init_db]
    exact createTable_any_self _ subscriptionsTableDef
  refine ⟨?_, ?_, by decide⟩
  · show createTableIfNotExists
      (createTableIfNotExists
        (createTableIfNotExists
          (createTableIfNotExists (init_db s) projectsTableDef)
          clientsTableDef)
        contactsTableDef)
      subscriptionsTableDef = init_db s
    rw [createTable_noop _ _ hp, createTable_noop _ _ hc,
        createTable_noop _ _ hco, createTable_noop _ _ hsu]
  · rw [init_db]
    apply createTable_names_nodup
    apply createTable_names_nodup
    apply createTable_names_nodup
    apply createTable_names_nodup
    exact hnd

/-- Closed instance of C9 starting from the empty schema. -/
theorem schema_init_idempotent_witness :
    init_db (init_db []) = init_db [] ∧
    ((init_db ([] : Schema)).map TableDef.name).Nodup ∧
    init_db []
      = [projectsTableDef, clientsTableDef, contactsTableDef, subscriptionsTableDef] :=
  schema_init_idempotent [] (by decide)

/-- C10: every stored text field is the whitespace-trimmed form input — a
successful contact submission stores the four fields trimmed and a
successful subscription stores the trimmed email; consequently two
submissions whose fields differ only in leading/trailing whitespace
insert identical rows. -/
theorem stored_fields_trimmed
    (cdb : ContactsTable) (cform : ContactForm) (now1 : String)
    (sdb : SubscriptionsTable) (em : String) (now2 : String)
    (w1 w2 w3 w4 w5 w6 w7 w8 w9 w10 : List Char)
    (hw1 : ∀ c ∈ w1, isPySpace c = true) (hw2 : ∀ c ∈ w2, isPySpace c = true)
    (hw3 : ∀ c ∈ w3, isPySpace c = true) (hw4 : ∀ c ∈ w4, isPySpace c = true)
    (hw5 : ∀ c ∈ w5, isPySpace c = true) (hw6 : ∀ c ∈ w6, isPySpace c = true)
    (hw7 : ∀ c ∈ w7, isPySpace c = true) (hw8 : ∀ c ∈ w8, isPySpace c = true)
    (hw9 : ∀ c ∈ w9, isPySpace c = true) (hw10 : ∀ c ∈ w10, isPySpace c = true)
    (hv1 : ¬ pyStrip cform.full_name = "") (hv2 : ¬ pyStrip cform.email = "")
    (hv3 : ¬ pyStrip cform.mobile = "") (hv4 : ¬ pyStrip cform.city = "")
    (hv5 : ¬ pyStrip em = "") :
    (contact_submit cdb cform now1).1.rows
      = cdb.rows ++ [ContactRow.mk cdb.nextId (pyStrip cform.full_name)
          (pyStrip cform.email) (pyStrip cform.mobile) (pyStrip cform.city) now1] ∧
    (subscribe sdb em now2).1.rows
      = sdb.rows ++ [SubscriptionRow.mk sdb.nextId (pyStrip em) now2] ∧
    contact_submit cdb
      (ContactForm.mk (String.mk (w1 ++ cform.full_name.data ++ w2))
        (String.mk (w3 ++ cform.email.data ++ w4))
        (String.mk (w5 ++ cform.mobile.data ++ w6))
        (String.mk (w7 ++ cform.city.data ++ w8))) now1
      = contact_submit cdb cform now1 ∧
    subscribe sdb (String.mk (w9 ++ em.data ++ w10)) now2 = subscribe sdb em now2 := by
  have hcon : ¬ (pyStrip cform.full_name = "" ∨ pyStrip cform.email = ""
      ∨ pyStrip cform.mobile = "" ∨ pyStrip cform.city = "") := by
    intro hcon
    rcases hcon with hx | hx | hx | hx
    · exact hv1 hx
    · exact hv2 hx
    · exact hv3 hx
    · exact hv4 hx
  refine ⟨?_, ?_, ?_, ?_⟩
  · simp only [contact_submit]
    rw [if_neg hcon]
  · simp only [subscribe]
    rw [if_neg hv5]
  · simp only [contact_submit]
    rw [pyStrip_pad w1 w2 cform.full_name hw1 hw2,
        pyStrip_pad w3 w4 cform.email hw3 hw4,
        pyStrip_pad w5 w6 cform.mobile hw5 hw6,
        pyStrip_pad w7 w8 cform.city hw7 hw8]
  · simp only [subscribe]
    rw [pyStrip_pad w9 w10 em hw9 hw10]

/-- Closed instance of C10: the padded Jane Doe contact and the padded
subscription email store the same rows as their unpadded versions. -/
theorem stored_fields_trimmed_witness :
    (contact_submit (ContactsTable.mk [] 1)
        (ContactForm.mk " Jane Doe " "jane@x.com" "555-0100" "Austin") "t1").1.rows
      = [] ++ [ContactRow.mk 1 (pyStrip " Jane Doe ") (pyStrip "jane@x.com")
          (pyStrip "555-0100") (pyStrip "Austin") "t1"] ∧
    (subscribe (SubscriptionsTable.mk [] 1) "joe@x.com " "t2").1.rows
      = [] ++ [SubscriptionRow.mk 1 (pyStrip "joe@x.com ") "t2"] ∧
    contact_submit (ContactsTable.mk [] 1)
      (ContactForm.mk (String.mk (" ".data ++ " Jane Doe ".data ++ "".data))
        (String.mk ("".data ++ "jane@x.com".data ++ " ".data))
        (String.mk ("".data ++ "555-0100".data ++ "".data))
        (String.mk ("\t".data ++ "Austin".data ++ "\n".data))) "t1"
      = contact_submit (ContactsTable.mk [] 1)
          (ContactForm.mk " Jane Doe " "jane@x.com" "555-0100" "Austin") "t1" ∧
    subscribe (SubscriptionsTable.mk [] 1)
        (String.mk (" ".data ++ "joe@x.com ".data ++ " ".data)) "t2"
      = subscribe (SubscriptionsTable.mk [] 1) "joe@x.com " "t2" :=
  stored_fields_trimmed (ContactsTable.mk [] 1)
    (ContactForm.mk " Jane Doe " "jane@x.com" "555-0100" "Austin") "t1"
    (SubscriptionsTable.mk [] 1) "joe@x.com " "t2"
    " ".data "".data "".data " ".data "".data "".data "\t".data "\n".data
    " ".data " ".data
    (by decide) (by decide) (by decide) (by decide) (by decide) (by decide)
    (by decide) (by decide) (by decide) (by decide)
    (by decide) (by decide) (by decide) (by decide) (by decide)
